import Mathlib

/-!
Verification of the award scoring, deduplication and ranking engine of the
select_start_bot2 repository.  The definitions below are shallow embeddings of
the JavaScript sources: `src/commands/leaderboard.js`,
`src/services/awardService.js`, `src/commands/profile.js`,
`src/services/scheduler.js` and `src/commands/admin/forceUpdate.js`.
Database collections are lists of records, Mongoose queries become list
filters, and the in-place loops of the sources become structurally recursive
functions carrying their accumulators.
-/

namespace SelectStart

/-- Modelled from the spec: the file `src/enums/AwardType.js` is not among the
sources.  The spec orders the tiers `NONE < PARTICIPATION < BEATEN < MASTERED`
and says `MANUAL` is a separate kind carrying an arbitrary point value; the
code compares tiers numerically (`award.award >= AwardType.MASTERED`). -/
inductive AwardType where
  | none
  | participation
  | beaten
  | mastered
  | manual
deriving DecidableEq, Repr

/-- JavaScript's `toLowerCase()` on usernames, written as a plain character
map so that concrete witnesses evaluate inside the kernel. -/
def strLower (s : String) : String :=
  ⟨s.data.map Char.toLower⟩

/-- Numeric value of a tier, mirroring the numeric enum used by the code in
comparisons such as `award.award >= AwardType.MASTERED`. -/
def awTo : AwardType → Nat
  | .none => 0
  | .participation => 1
  | .beaten => 2
  | .mastered => 3
  | .manual => 4

/-- Numeric `>=` comparison on tiers, as the JavaScript performs it. -/
def awardGe (a b : AwardType) : Bool := awTo b ≤ awTo a

/-- Boolean award flags sub-document (`award.awards` in `leaderboard.js`). -/
structure AwardFlags where
  participation : Bool
  beaten : Bool
  mastered : Bool
deriving DecidableEq, Repr

/-- Metadata attached to manual awards (`award.metadata`). -/
structure AwardMeta where
  type : String
  placement : String
  monthName : String
  emoji : String
deriving DecidableEq, Repr

/-- A record of the `Award` collection, with the fields the embedded code
reads: `raUsername`, `gameId`, `month`, `year`, the numeric tier `award`, the
flags object `awards`, `achievementCount`, `totalAchievements` (holding the
point value for manual awards), `highestAwardKind` (read by `profile.js`),
`reason`, `awardedBy` and `metadata`. -/
structure AwardRec where
  raUsername : String
  gameId : String
  month : Nat
  year : Nat
  award : AwardType
  awards : AwardFlags
  achievementCount : Int
  totalAchievements : Int
  highestAwardKind : AwardType
  reason : String
  awardedBy : String
  metadata : Option AwardMeta
deriving DecidableEq, Repr

/-- A record of the `Game` collection, with the fields read by the embedded
code: `gameId`, `month`, `year`, `type` and `title`. -/
structure GameRec where
  gameId : String
  month : Nat
  year : Nat
  type : String
  title : String
deriving DecidableEq, Repr

/-! ## Point schemes -/

/-- The helper `calculatePoints(awards)` of `src/commands/leaderboard.js`
(lines 6-12): participation contributes 1, beaten 3 more, mastered 3 more. -/
def calculatePoints (f : AwardFlags) : Int :=
  (if f.participation then 1 else 0)
    + (if f.beaten then 3 else 0)
    + (if f.mastered then 3 else 0)

/-- Per-tier points of `AwardService.calculateTotalPoints`
(`src/services/awardService.js` lines 135-144): the if/else-if chain adds 7
for a tier `>= MASTERED`, 4 for `>= BEATEN`, 1 for `>= PARTICIPATION`. -/
def tierPoints (t : AwardType) : Int :=
  if awardGe t .mastered then 7
  else if awardGe t .beaten then 4
  else if awardGe t .participation then 1
  else 0

/-- Modelled from the spec: `AwardFunctions.getPoints` lives in the missing
file `src/enums/AwardType.js`; the spec's testable default scheme is
PARTICIPATION = 1, BEATEN = 4 total, MASTERED = 7 total. -/
def getPoints : AwardType → Int
  | .participation => 1
  | .beaten => 4
  | .mastered => 7
  | _ => 0

/-- Modelled from the spec: the flags stored on a non-manual award with a
given tier are cumulative (Mastered implies Beaten implies Participation);
the scorer that writes them is not among the sources. -/
def flagsOfTier : AwardType → AwardFlags
  | .participation => ⟨true, false, false⟩
  | .beaten => ⟨true, true, false⟩
  | .mastered => ⟨true, true, true⟩
  | _ => ⟨false, false, false⟩

/-- Per-tier points added by the `switch` of `getYearlyStats` in
`src/commands/profile.js` (lines 109-135): each case adds
`AwardFunctions.getPoints` of the matched tier, all other kinds add 0. -/
def profilePointsForTier (t : AwardType) : Int :=
  match t with
  | .mastered => getPoints .mastered
  | .beaten => getPoints .beaten
  | .participation => getPoints .participation
  | _ => 0

/-! ## Rank assignment

Both `getMonthlyLeaderboard` (lines 41-57) and `getYearlyLeaderboard`
(lines 97-112) of `src/commands/leaderboard.js` run the same loop over the
sorted entries, with state `currentRank` (initially 1), `currentScore`
(initially -1) and `increment` (initially 0). -/

/-- The shared rank-assignment loop.  For each entry: when its score differs
from `currentScore`, `currentRank` jumps by `increment`, `increment` resets to
1 and the entry gets the new `currentRank`; when it ties, the entry gets the
same `currentRank` and `increment` grows. -/
def rankGo (score : α → Int) (r : Nat) (cs : Int) (inc : Nat) :
    List α → List (α × Nat)
  | [] => []
  | a :: rest =>
    if score a = cs then
      (a, r) :: rankGo score r cs (inc + 1) rest
    else
      (a, r + inc) :: rankGo score (r + inc) (score a) 1 rest

/-- Rank assignment as the two leaderboard functions run it, starting from
`currentRank = 1`, `currentScore = -1`, `increment = 0`. -/
def assignRanks (score : α → Int) (l : List α) : List (α × Nat) :=
  rankGo score 1 (-1) 0 l

example : assignRanks (fun x => x) [5, 5, 3] = [(5, 1), (5, 1), (3, 3)] := by
  decide

example :
    assignRanks (fun x => x) [9, 7, 7, 7, 2] =
      [(9, 1), (7, 2), (7, 2), (7, 2), (2, 5)] := by
  decide

/-! ## Yearly aggregation: `AwardService.calculateTotalPoints` -/

/-- Deduplication key `` `${award.gameId}-${award.month}` `` used by
`calculateTotalPoints` and `AwardService.getYearlyStats`. -/
def gameKey (a : AwardRec) : String :=
  a.gameId ++ "-" ++ toString a.month

/-- The list of awards that survive the shared iteration pattern of
`calculateTotalPoints` and `AwardService.getYearlyStats`: manual awards are
skipped, and of the remaining awards only the first one per `gameKey` not
already in `seen` is kept. -/
def serviceProcess (seen : List String) : List AwardRec → List AwardRec
  | [] => []
  | a :: rest =>
    if a.gameId = "manual" then serviceProcess seen rest
    else if gameKey a ∈ seen then serviceProcess seen rest
    else a :: serviceProcess (gameKey a :: seen) rest

/-- Sum of the tier-derived points of a list of awards. -/
def tierSum (l : List AwardRec) : Int :=
  (l.map (fun a => tierPoints a.award)).sum

/-- Sum of the point values (`totalAchievements`) of the manual awards of a
list. -/
def manualSum (l : List AwardRec) : Int :=
  ((l.filter (fun a => a.gameId = "manual")).map
    (fun a => a.totalAchievements)).sum

/-- The loop of `calculateTotalPoints` (`awardService.js` lines 123-146),
accumulating the pair `(points.challenge, points.community)` while tracking
the `processedGames` set of keys: manual awards add `totalAchievements` to
the community total; a non-manual award whose key is unseen adds its tier
points to the challenge total and marks its key processed. -/
def calcTPLoop : List AwardRec → List String → Int × Int → Int × Int
  | [], _, acc => acc
  | a :: rest, seen, (ch, co) =>
    if a.gameId = "manual" then
      calcTPLoop rest seen (ch, co + a.totalAchievements)
    else if gameKey a ∈ seen then
      calcTPLoop rest seen (ch, co)
    else
      calcTPLoop rest (gameKey a :: seen) (ch + tierPoints a.award, co)

/-- The awards selected by the queries of `calculateTotalPoints`,
`AwardService.getYearlyStats` and `getYearlyLeaderboard` for one user:
`raUsername` equal to the lowercased username, in the given year. -/
def yearAwards (username : String) (year : Nat) (store : List AwardRec) :
    List AwardRec :=
  store.filter (fun a => a.raUsername = strLower username ∧ a.year = year)

/-- `AwardService.calculateTotalPoints` (`awardService.js` lines 99-154),
reduced to the final `points.total`, which the code sets to
`points.challenge + points.community` after the loop. -/
def calculateTotalPoints (username : String) (year : Nat)
    (store : List AwardRec) : Int :=
  let p := calcTPLoop (yearAwards username year store) [] (0, 0)
  p.1 + p.2

/-! ## `AwardService.getYearlyStats` -/

/-- The statistics object built by `AwardService.getYearlyStats`
(`awardService.js` lines 218-269). -/
structure ServiceStats where
  mastered : Nat
  beaten : Nat
  participation : Nat
  manualPoints : Int
  totalPoints : Int
  monthlyPlacements : List (String × String × Int)
deriving DecidableEq, Repr

/-- The manual-award step of `AwardService.getYearlyStats` (lines 239-248):
the point value joins `manualPoints`, and placement metadata appends a
monthly placement entry. -/
def manualUpd (a : AwardRec) (s : ServiceStats) : ServiceStats :=
  { s with
    manualPoints := s.manualPoints + a.totalAchievements
    monthlyPlacements := s.monthlyPlacements ++
      (match a.metadata with
        | some m =>
          if m.type = "placement" then
            [(m.monthName, m.placement, a.totalAchievements)]
          else []
        | Option.none => []) }

/-- The tier-counter step of `AwardService.getYearlyStats` (lines 255-261):
the same `>=` chain as `calculateTotalPoints` bumps exactly one of the
`mastered`, `beaten`, `participation` counters. -/
def tierUpd (a : AwardRec) (s : ServiceStats) : ServiceStats :=
  if awardGe a.award .mastered then { s with mastered := s.mastered + 1 }
  else if awardGe a.award .beaten then { s with beaten := s.beaten + 1 }
  else if awardGe a.award .participation then
    { s with participation := s.participation + 1 }
  else s

/-- The loop of `AwardService.getYearlyStats`: manual awards take the manual
step; the first non-manual award per `gameKey` takes the tier-counter step
and marks its key processed. -/
def serviceStatsLoop : List AwardRec → List String → ServiceStats →
    ServiceStats
  | [], _, s => s
  | a :: rest, seen, s =>
    if a.gameId = "manual" then
      serviceStatsLoop rest seen (manualUpd a s)
    else if gameKey a ∈ seen then
      serviceStatsLoop rest seen s
    else
      serviceStatsLoop rest (gameKey a :: seen) (tierUpd a s)

/-- `AwardService.getYearlyStats`: run the loop on the user's awards of the
year starting from all-zero statistics, then set
`totalPoints = mastered * 7 + beaten * 4 + participation + manualPoints`. -/
def serviceGetYearlyStats (username : String) (year : Nat)
    (store : List AwardRec) : ServiceStats :=
  let s := serviceStatsLoop (yearAwards username year store) []
    ⟨0, 0, 0, 0, 0, []⟩
  { s with totalPoints :=
      (s.mastered : Int) * 7 + (s.beaten : Int) * 4
        + (s.participation : Int) + s.manualPoints }

/-! ## `getYearlyStats` of `profile.js` -/

/-- The statistics object built by `getYearlyStats` in
`src/commands/profile.js` (lines 60-144). -/
structure ProfileStats where
  totalPoints : Int
  totalAchievements : Int
  gamesParticipated : Nat
  gamesBeaten : Nat
  gamesMastered : Nat
  monthlyGames : Nat
  shadowGames : Nat
  participationGames : List String
  beatenGames : List String
  masteredGames : List String
deriving DecidableEq, Repr

/-- Insertion into a JavaScript `Set` of strings: appends the element when it
is not yet present, keeping insertion order. -/
def addUnique (l : List String) (t : String) : List String :=
  if t ∈ l then l else l ++ [t]

/-- Lookup `Game.findOne({ gameId, year })` used by the profile loop. -/
def findGame (games : List GameRec) (gameId : String) (year : Nat) :
    Option GameRec :=
  games.find? (fun g => g.gameId = gameId ∧ g.year = year)

/-- The awards actually processed by the profile loop: awards with
non-positive `achievementCount` or without a matching game of the year are
skipped, and of the rest only the first per `` `${game.gameId}-${month}` ``
key is kept. -/
def profileProcess (games : List GameRec) (year : Nat) (seen : List String) :
    List AwardRec → List AwardRec
  | [] => []
  | a :: rest =>
    if a.achievementCount ≤ 0 then profileProcess games year seen rest
    else
      match findGame games a.gameId year with
      | Option.none => profileProcess games year seen rest
      | some g =>
        if g.gameId ++ "-" ++ toString a.month ∈ seen then
          profileProcess games year seen rest
        else
          a :: profileProcess games year
            ((g.gameId ++ "-" ++ toString a.month) :: seen) rest

/-- The single contribution of one processed award to the profile statistics:
the `switch` on `award.highestAwardKind` (lines 110-135).  A mastered game
adds its points and counts toward mastered, beaten and participated; a beaten
game counts toward beaten and participated; a participation game only toward
participated. -/
def profileStep (g : GameRec) (a : AwardRec) (s : ProfileStats) :
    ProfileStats :=
  let s0 := { s with
    totalAchievements := s.totalAchievements + a.achievementCount
    monthlyGames := s.monthlyGames + (if g.type = "MONTHLY" then 1 else 0)
    shadowGames := s.shadowGames + (if g.type = "SHADOW" then 1 else 0) }
  match a.highestAwardKind with
  | .mastered =>
    { s0 with
      totalPoints := s0.totalPoints + getPoints .mastered
      gamesMastered := s0.gamesMastered + 1
      masteredGames := addUnique s0.masteredGames g.title
      gamesBeaten := s0.gamesBeaten + 1
      beatenGames := addUnique s0.beatenGames g.title
      gamesParticipated := s0.gamesParticipated + 1
      participationGames := addUnique s0.participationGames g.title }
  | .beaten =>
    { s0 with
      totalPoints := s0.totalPoints + getPoints .beaten
      gamesBeaten := s0.gamesBeaten + 1
      beatenGames := addUnique s0.beatenGames g.title
      gamesParticipated := s0.gamesParticipated + 1
      participationGames := addUnique s0.participationGames g.title }
  | .participation =>
    { s0 with
      totalPoints := s0.totalPoints + getPoints .participation
      gamesParticipated := s0.gamesParticipated + 1
      participationGames := addUnique s0.participationGames g.title }
  | _ => s0

/-- The loop of the profile `getYearlyStats`, carrying the `processedGames`
keys and the statistics accumulator. -/
def profileStatsLoop (games : List GameRec) (year : Nat) :
    List AwardRec → List String → ProfileStats → ProfileStats
  | [], _, s => s
  | a :: rest, seen, s =>
    if a.achievementCount ≤ 0 then profileStatsLoop games year rest seen s
    else
      match findGame games a.gameId year with
      | Option.none => profileStatsLoop games year rest seen s
      | some g =>
        if g.gameId ++ "-" ++ toString a.month ∈ seen then
          profileStatsLoop games year rest seen s
        else
          profileStatsLoop games year rest
            ((g.gameId ++ "-" ++ toString a.month) :: seen) (profileStep g a s)

/-- The awards selected by the query of the profile `getYearlyStats`
(lines 63-67): the user's non-manual awards of the year. -/
def profileYearAwards (normalizedUsername : String) (year : Nat)
    (store : List AwardRec) : List AwardRec :=
  store.filter (fun a =>
    a.raUsername = normalizedUsername ∧ a.year = year ∧ ¬ a.gameId = "manual")

/-- `getYearlyStats` of `profile.js`: query the user's non-manual awards of
the current year and run the loop from all-zero statistics. -/
def profileGetYearlyStats (normalizedUsername : String) (year : Nat)
    (games : List GameRec) (store : List AwardRec) : ProfileStats :=
  profileStatsLoop games year (profileYearAwards normalizedUsername year store)
    [] ⟨0, 0, 0, 0, 0, 0, 0, [], [], []⟩

/-! ## `getYearlyLeaderboard` of `leaderboard.js` -/

/-- One value of the `userPoints` object built by `getYearlyLeaderboard`
(`leaderboard.js` lines 70-91). -/
structure YEntry where
  username : String
  totalPoints : Int
  participations : Nat
  beaten : Nat
  mastered : Nat
deriving DecidableEq, Repr

/-- Lookup of a key in the insertion-ordered map modelling the JavaScript
object `userPoints`. -/
def lookupEntry (m : List (String × YEntry)) (k : String) : Option YEntry :=
  (m.find? (fun p => p.1 = k)).map (fun p => p.2)

/-- Store a value under a key in the insertion-ordered map: an existing key
is updated in place, a new key is appended at the end, as JavaScript objects
behave for string keys. -/
def setEntry : List (String × YEntry) → String → YEntry →
    List (String × YEntry)
  | [], k, e => [(k, e)]
  | (k0, e0) :: rest, k, e =>
    if k0 = k then (k, e) :: rest else (k0, e0) :: setEntry rest k e

/-- The grouping loop of `getYearlyLeaderboard`: every award keys into the
map by its lowercased `raUsername` (creating a zeroed entry carrying the
first-seen casing), and when `calculatePoints(award.awards)` is positive its
points and flag counts are added to the entry. -/
def yearlyLBLoop : List AwardRec → List (String × YEntry) →
    List (String × YEntry)
  | [], m => m
  | a :: rest, m =>
    let k := strLower a.raUsername
    let e := match lookupEntry m k with
      | some e0 => e0
      | Option.none => ⟨a.raUsername, 0, 0, 0, 0⟩
    let pts := calculatePoints a.awards
    let e1 := if 0 < pts then
        { e with
          totalPoints := e.totalPoints + pts
          participations :=
            e.participations + (if a.awards.participation then 1 else 0)
          beaten := e.beaten + (if a.awards.beaten then 1 else 0)
          mastered := e.mastered + (if a.awards.mastered then 1 else 0) }
      else e
    yearlyLBLoop rest (setEntry m k e1)

/-- The users kept by `getYearlyLeaderboard` before sorting (lines 93-95):
the grouped totals of all awards of the year, filtered to users with
positive `totalPoints`. -/
def yearlyPositive (year : Nat) (store : List AwardRec) : List YEntry :=
  ((yearlyLBLoop (store.filter (fun a => a.year = year)) []).map
    Prod.snd).filter (fun e => 0 < e.totalPoints)

/-- The sorted user list of `getYearlyLeaderboard` (lines 66-95): group all
awards of the year by user, keep users with positive totals, sort descending
by total points (stably, as `Array.prototype.sort` is). -/
def getYearlyLeaderboardEntries (year : Nat) (store : List AwardRec) :
    List YEntry :=
  (yearlyPositive year store).mergeSort
    (fun a b => decide (b.totalPoints ≤ a.totalPoints))

/-- `getYearlyLeaderboard`: the sorted users with their assigned ranks. -/
def getYearlyLeaderboard (year : Nat) (store : List AwardRec) :
    List (YEntry × Nat) :=
  assignRanks (fun e => e.totalPoints) (getYearlyLeaderboardEntries year store)

/-- The awards selected by the query of `getMonthlyLeaderboard`
(`leaderboard.js` lines 33-38): the given game and period, with positive
`achievementCount`. -/
def monthlyEligible (gameId : String) (month year : Nat)
    (store : List AwardRec) : List AwardRec :=
  store.filter (fun a =>
    a.gameId = gameId ∧ a.month = month ∧ a.year = year
      ∧ 0 < a.achievementCount)

/-- The ranked award list of `getMonthlyLeaderboard` (`leaderboard.js` lines
33-57): the eligible awards sorted descending by `achievementCount`, with
ranks assigned by the shared loop. -/
def getMonthlyRanked (gameId : String) (month year : Nat)
    (store : List AwardRec) : List (AwardRec × Nat) :=
  assignRanks (fun a => a.achievementCount)
    ((monthlyEligible gameId month year store).mergeSort
      (fun a b => decide (b.achievementCount ≤ a.achievementCount)))

/-! ## Queries: `hasAward` and `getHighestAward` -/

/-- The query `Award.findOne({ raUsername: username.toLowerCase(), gameId,
month, year })` shared by `hasAward` and `getHighestAward`
(`awardService.js` lines 190-213). -/
def findAward (store : List AwardRec) (username gameId : String)
    (month year : Nat) : Option AwardRec :=
  store.find? (fun a =>
    a.raUsername = strLower username ∧ a.gameId = gameId
      ∧ a.month = month ∧ a.year = year)

/-- `AwardService.hasAward`: whether the query found a record.  The store is
returned unchanged, mirroring that the operation only performs a read. -/
def hasAward (store : List AwardRec) (username gameId : String)
    (month year : Nat) : Bool × List AwardRec :=
  (match findAward store username gameId month year with
    | some _ => true
    | Option.none => false, store)

/-- `AwardService.getHighestAward`: the found record's tier, `NONE` when the
query finds nothing.  The store is returned unchanged, mirroring that the
operation only performs a read. -/
def getHighestAward (store : List AwardRec) (username gameId : String)
    (month year : Nat) : AwardType × List AwardRec :=
  (match findAward store username gameId month year with
    | some a => a.award
    | Option.none => AwardType.none, store)

/-! ## Manual awards -/

/-- The record built by `AwardService.addManualAward` (`awardService.js`
lines 24-55): `gameId` is the literal `"manual"`, the username is the
canonical username lowercased, `totalAchievements` holds the point value, and
the tier is `MANUAL`.  Fields the constructor does not list take the
schema defaults (false flags, zero counts). -/
def mkManualAward (canonical : String → String) (username : String)
    (points : Int) (reason awardedBy : String) (meta : Option AwardMeta)
    (month year : Nat) : AwardRec where
  raUsername := strLower (canonical username)
  gameId := "manual"
  month := month
  year := year
  award := .manual
  awards := ⟨false, false, false⟩
  achievementCount := 0
  totalAchievements := points
  highestAwardKind := .none
  reason := reason
  awardedBy := awardedBy
  metadata := meta

/-- `AwardService.addManualAward`: construct a fresh record and `save()` it,
which inserts a new document.  The function is parametrised by the canonical
username resolution of the external `usernameUtils` and by the current month
and year. -/
def addManualAward (canonical : String → String) (username : String)
    (points : Int) (reason awardedBy : String) (meta : Option AwardMeta)
    (month year : Nat) (store : List AwardRec) :
    List AwardRec × AwardRec :=
  let a := mkManualAward canonical username points reason awardedBy meta
    month year
  (store ++ [a], a)

/-- The `placementMap` of `AwardService.addPlacementAward` (`awardService.js`
lines 160-164): points, emoji and display name per placement. -/
def placementMap : String → Option (Int × String × String)
  | "first" => some (5, "🥇", "First Place")
  | "second" => some (3, "🥈", "Second Place")
  | "third" => some (2, "🥉", "Third Place")
  | _ => Option.none

/-- `AwardService.addPlacementAward` (lines 159-185): an unknown placement is
an error; otherwise a manual award is added with the mapped points, a reason
built from emoji, name and month, awarder `"System"` and placement
metadata. -/
def addPlacementAward (canonical : String → String) (username : String)
    (placement monthName : String) (month year : Nat)
    (store : List AwardRec) : Except String (List AwardRec × AwardRec) :=
  match placementMap (strLower placement) with
  | Option.none => Except.error "Invalid placement"
  | some (points, emoji, pname) =>
    Except.ok (addManualAward canonical username points
      (emoji ++ " " ++ pname ++ " - " ++ monthName) "System"
      (some ⟨"placement", pname, monthName, emoji⟩) month year store)

/-! ## The Scorer (spec-modelled) -/

/-- Key predicate for the at-most-one-award-per-(user, game, period)
invariant. -/
def awardKeyMatch (user game : String) (month year : Nat)
    (a : AwardRec) : Bool :=
  a.raUsername = user ∧ a.gameId = game ∧ a.month = month ∧ a.year = year

/-- Modelled from the spec: the Scorer (`achievementService`) is not among
the sources.  Following spec section 4.3, a fresh award is created for a key
with no prior record; an existing record has its progress updated, and its
tier raised exactly when the newly computed tier is strictly greater, in
which case one announcement (old tier, new tier) is emitted. -/
def mkScoredAward (user game : String) (month year : Nat)
    (tier : AwardType) (progress : Int) : AwardRec where
  raUsername := user
  gameId := game
  month := month
  year := year
  award := tier
  awards := flagsOfTier tier
  achievementCount := progress
  totalAchievements := 0
  highestAwardKind := tier
  reason := ""
  awardedBy := ""
  metadata := Option.none

/-- Modelled from the spec: one Scorer upsert for a (user, game, period) key
with a computed tier and observed progress.  Returns the new store and the
emitted tier-advance announcement, when any. -/
def scorerApply (user game : String) (month year : Nat) (tier : AwardType)
    (progress : Int) :
    List AwardRec → List AwardRec × Option (AwardType × AwardType)
  | [] =>
    ([mkScoredAward user game month year tier progress],
      if 0 < awTo tier then some (AwardType.none, tier) else Option.none)
  | a :: rest =>
    if awardKeyMatch user game month year a then
      if awTo a.award < awTo tier then
        ({ a with
            award := tier
            highestAwardKind := tier
            awards := flagsOfTier tier
            achievementCount := progress } :: rest,
          some (a.award, tier))
      else
        ({ a with achievementCount := progress } :: rest, Option.none)
    else
      let p := scorerApply user game month year tier progress rest
      (a :: p.1, p.2)

/-- Modelled from the spec: a whole sequence of Scorer observations for a
fixed (user, game, period) key, applied in order. -/
def scorerApplyAll (user game : String) (month year : Nat)
    (obs : List (AwardType × Int)) (store : List AwardRec) : List AwardRec :=
  obs.foldl
    (fun s o => (scorerApply user game month year o.1 o.2 s).1) store

/-- The stored tier of a key: the tier of the first matching record, `NONE`
when no record matches. -/
def tierAt (user game : String) (month year : Nat)
    (store : List AwardRec) : AwardType :=
  match store.find? (awardKeyMatch user game month year) with
  | some a => a.award
  | Option.none => AwardType.none

/-! ## Scheduler maintenance handlers -/

/-- The mutable service state touched by the maintenance handlers of
`src/services/scheduler.js`: the short-lived result cache, the per-user
check cache `lastUserChecks`, the active user set, the last active-update
timestamp, the preloaded challenge cache and the Award store. -/
structure PipelineState where
  resultCache : List (String × String)
  lastUserChecks : List (String × Nat)
  activeUsers : List String
  lastActiveUpdate : Option Nat
  challengeCache : List GameRec
  awards : List AwardRec
deriving DecidableEq, Repr

/-- Modelled from the spec: `achievementService.clearCache` is not among the
sources.  It clears the short-lived result cache of spec section 1; the
handlers that also want `lastUserChecks` emptied call
`lastUserChecks.clear()` separately, so `clearCache` leaves it alone. -/
def clearCache (s : PipelineState) : PipelineState :=
  { s with resultCache := [] }

/-- Modelled from the spec: `achievementService.updateActiveUsers` follows
spec section 4.1 — it atomically replaces the active set with the freshly
computed one (a parameter here, since the activity signal is external) and
stamps the update time; it touches neither the check caches nor the Award
store. -/
def updateActiveUsers (newActive : List String) (now : Nat)
    (s : PipelineState) : PipelineState :=
  { s with activeUsers := newActive, lastActiveUpdate := some now }

/-- Modelled from the spec: `preloadCurrentChallenges` loads the current
challenge records (a parameter, as they come from the store) into the
challenge cache. -/
def preloadCurrentChallenges (cs : List GameRec) (s : PipelineState) :
    PipelineState :=
  { s with challengeCache := cs }

/-- The `dailyCleanup` handler of the first scheduler variant
(`scheduler.js` lines 40-54): clear the result cache, clear
`lastUserChecks`, null `lastActiveUpdate`, then update active users. -/
def dailyCleanupV1 (newActive : List String) (now : Nat)
    (s : PipelineState) : PipelineState :=
  updateActiveUsers newActive now
    { clearCache s with
        lastUserChecks := []
        lastActiveUpdate := Option.none }

/-- The `weeklyMaintenance` handler of the first scheduler variant (lines
57-74): additionally clears the active user set before refreshing it. -/
def weeklyMaintenanceV1 (newActive : List String) (now : Nat)
    (s : PipelineState) : PipelineState :=
  updateActiveUsers newActive now
    { clearCache s with
        lastUserChecks := []
        activeUsers := []
        lastActiveUpdate := Option.none }

/-- The `monthlyRollover` handler of the first scheduler variant (lines
77-97): same cache clearing as the weekly maintenance. -/
def monthlyRolloverV1 (newActive : List String) (now : Nat)
    (s : PipelineState) : PipelineState :=
  updateActiveUsers newActive now
    { clearCache s with
        lastUserChecks := []
        activeUsers := []
        lastActiveUpdate := Option.none }

/-- The `dailyCleanup` handler of the second scheduler variant
(`scheduler.js` lines 215-233): it calls `clearCache()` and
`updateActiveUsers()` but never `lastUserChecks.clear()`. -/
def dailyCleanupV2 (newActive : List String) (now : Nat)
    (s : PipelineState) : PipelineState :=
  updateActiveUsers newActive now (clearCache s)

/-- The `weeklyMaintenance` handler of the second scheduler variant (lines
236-259): clears the result cache, `lastUserChecks` and the active set,
refreshes active users and preloads the current challenges. -/
def weeklyMaintenanceV2 (newActive : List String) (now : Nat)
    (cs : List GameRec) (s : PipelineState) : PipelineState :=
  preloadCurrentChallenges cs (updateActiveUsers newActive now
    { clearCache s with
        lastUserChecks := []
        activeUsers := []
        lastActiveUpdate := Option.none })

/-- The `monthlyRollover` handler of the second scheduler variant (lines
262-290): same clearing as the weekly maintenance of that variant. -/
def monthlyRolloverV2 (newActive : List String) (now : Nat)
    (cs : List GameRec) (s : PipelineState) : PipelineState :=
  preloadCurrentChallenges cs (updateActiveUsers newActive now
    { clearCache s with
        lastUserChecks := []
        activeUsers := []
        lastActiveUpdate := Option.none })

/-! ## The `forceupdate` command -/

/-- Result of one run of the `forceupdate` command: whether
`statsUpdateService.start()` was invoked and the reply text shown. -/
structure ForceUpdateResult where
  started : Bool
  reply : String
deriving DecidableEq, Repr

/-- The `execute` handler of `src/commands/admin/forceUpdate.js` (lines
10-44): a non-admin caller is refused; when `statsUpdateService.isUpdating`
is true the command only reports an update in progress and starts nothing;
otherwise it runs the update. -/
def forceUpdateExecute (hasAdminRole : Bool) (isUpdating : Bool) :
    ForceUpdateResult :=
  if ¬ hasAdminRole then
    ⟨false, "You do not have permission to use this command."⟩
  else if isUpdating then
    ⟨false,
      "An update is already in progress. Please wait for it to complete."⟩
  else
    ⟨true, "Stats update completed successfully!"⟩

/-! ## Sample records used by witnesses and counterexamples -/

/-- A sample award at tier MASTERED for game 10 of January 2025. -/
def sampleMastered : AwardRec where
  raUsername := "alice"
  gameId := "10"
  month := 1
  year := 2025
  award := .mastered
  awards := flagsOfTier .mastered
  achievementCount := 30
  totalAchievements := 0
  highestAwardKind := .mastered
  reason := ""
  awardedBy := ""
  metadata := Option.none

/-- The game record matching `sampleMastered`. -/
def sampleGame : GameRec where
  gameId := "10"
  month := 1
  year := 2025
  type := "MONTHLY"
  title := "Sample Game"

/-- A sample manual award of 5 points for alice in 2025, with the schema
defaults an `addManualAward` record carries. -/
def sampleManual : AwardRec :=
  mkManualAward id "alice" 5 "community help" "Admin" Option.none 2 2025

/-- The record produced by a successful first-place `addPlacementAward`
call for Alice in January 2025. -/
def firstPlacementRec : AwardRec :=
  mkManualAward id "Alice" 5 "🥇 First Place - January" "System"
    (some ⟨"placement", "First Place", "January", "🥇"⟩) 1 2025

/-- A pipeline state whose per-user check cache is not empty. -/
def samplePipelineState : PipelineState where
  resultCache := [("alice", "sig")]
  lastUserChecks := [("alice", 3)]
  activeUsers := ["alice"]
  lastActiveUpdate := some 7
  challengeCache := []
  awards := [sampleMastered]

end SelectStart

namespace SelectStart

/-! # Theorems -/

/-- C3: one consistent point scheme (PARTICIPATION = 1, BEATEN = 4 total,
MASTERED = 7 total) is applied uniformly.  For each tier, the per-tier points
of `AwardService.calculateTotalPoints` (`tierPoints`), the boolean-flag
points of `calculatePoints` in `leaderboard.js` (evaluated on the cumulative
flags of that tier) and the per-tier accounting of the `switch` in
`profile.js`'s `getYearlyStats` (`profilePointsForTier`, built on
`AwardFunctions.getPoints`) all give the same value: 1, 4 and 7. -/
theorem claim_C3_uniform_point_scheme :
    (tierPoints .participation = 1 ∧ tierPoints .beaten = 4
      ∧ tierPoints .mastered = 7)
    ∧ (calculatePoints (flagsOfTier .participation) = 1
      ∧ calculatePoints (flagsOfTier .beaten) = 4
      ∧ calculatePoints (flagsOfTier .mastered) = 7)
    ∧ (profilePointsForTier .participation = 1
      ∧ profilePointsForTier .beaten = 4
      ∧ profilePointsForTier .mastered = 7) := by
  decide

/-- Unfolding of `tierAt` when the head of the store matches the key. -/
theorem tierAt_cons_pos (u g : String) (m y : Nat) (a : AwardRec)
    (rest : List AwardRec) (h : awardKeyMatch u g m y a = true) :
    tierAt u g m y (a :: rest) = a.award := by
  simp [tierAt, List.find?_cons_of_pos _ h]

/-- Unfolding of `tierAt` when the head of the store misses the key. -/
theorem tierAt_cons_neg (u g : String) (m y : Nat) (a : AwardRec)
    (rest : List AwardRec) (h : ¬ awardKeyMatch u g m y a = true) :
    tierAt u g m y (a :: rest) = tierAt u g m y rest := by
  simp [tierAt, List.find?_cons_of_neg _ h]

/-- A single Scorer upsert never lowers the stored tier of its key. -/
theorem tierAt_scorerApply_mono (u g : String) (m y : Nat) (t : AwardType)
    (pr : Int) (store : List AwardRec) :
    awTo (tierAt u g m y store)
      ≤ awTo (tierAt u g m y (scorerApply u g m y t pr store).1) := by
  induction store with
  | nil =>
    have hnil : tierAt u g m y [] = AwardType.none := rfl
    rw [hnil]
    exact Nat.zero_le _
  | cons a rest ih =>
    by_cases hm : awardKeyMatch u g m y a = true
    · by_cases hlt : awTo a.award < awTo t
      · have h2 : (scorerApply u g m y t pr (a :: rest)).1 =
            ({ a with
              award := t
              highestAwardKind := t
              awards := flagsOfTier t
              achievementCount := pr } :: rest) := by
          simp [scorerApply, hm, hlt]
        rw [tierAt_cons_pos u g m y a rest hm, h2,
          tierAt_cons_pos u g m y _ rest (by simpa [awardKeyMatch] using hm)]
        exact Nat.le_of_lt hlt
      · have h2 : (scorerApply u g m y t pr (a :: rest)).1 =
            ({ a with achievementCount := pr } :: rest) := by
          simp [scorerApply, hm, hlt]
        rw [tierAt_cons_pos u g m y a rest hm, h2,
          tierAt_cons_pos u g m y _ rest (by simpa [awardKeyMatch] using hm)]
    · have h2 : (scorerApply u g m y t pr (a :: rest)).1 =
          a :: (scorerApply u g m y t pr rest).1 := by
        simp [scorerApply, hm]
      rw [tierAt_cons_neg u g m y a rest hm, h2,
        tierAt_cons_neg u g m y a _ hm]
      exact ih

/-- C4: for any sequence of progress observations applied by the Scorer for
a fixed (user, game, period) key, the stored tier is non-decreasing: the
tier recorded after applying the whole sequence is at least the tier
recorded before, whatever (possibly lower) tiers the observations carry. -/
theorem claim_C4_tier_never_regresses (u g : String) (m y : Nat)
    (obs : List (AwardType × Int)) (store : List AwardRec) :
    awTo (tierAt u g m y store)
      ≤ awTo (tierAt u g m y (scorerApplyAll u g m y obs store)) := by
  induction obs generalizing store with
  | nil => exact Nat.le_refl _
  | cons o rest ih =>
    have hstep : scorerApplyAll u g m y (o :: rest) store
        = scorerApplyAll u g m y rest (scorerApply u g m y o.1 o.2 store).1 :=
      rfl
    rw [hstep]
    exact Nat.le_trans (tierAt_scorerApply_mono u g m y o.1 o.2 store)
      (ih (scorerApply u g m y o.1 o.2 store).1)

/-- A single Scorer upsert keeps the number of records of its key at most
one. -/
theorem countP_scorerApply_le (u g : String) (m y : Nat) (t : AwardType)
    (pr : Int) (store : List AwardRec)
    (h : store.countP (awardKeyMatch u g m y) ≤ 1) :
    ((scorerApply u g m y t pr store).1).countP (awardKeyMatch u g m y)
      ≤ 1 := by
  induction store with
  | nil =>
    simp [scorerApply, List.countP_cons, awardKeyMatch, mkScoredAward]
  | cons a rest ih =>
    by_cases hm : awardKeyMatch u g m y a = true
    · have hrest : rest.countP (awardKeyMatch u g m y) = 0 := by
        rw [List.countP_cons, if_pos hm] at h
        omega
      by_cases hlt : awTo a.award < awTo t
      · have h2 : (scorerApply u g m y t pr (a :: rest)).1 =
            ({ a with
              award := t
              highestAwardKind := t
              awards := flagsOfTier t
              achievementCount := pr } :: rest) := by
          simp [scorerApply, hm, hlt]
        rw [h2, List.countP_cons]
        have hm2 : awardKeyMatch u g m y
            { a with
              award := t
              highestAwardKind := t
              awards := flagsOfTier t
              achievementCount := pr } = true := by
          simpa [awardKeyMatch] using hm
        rw [if_pos hm2, hrest]
      · have h2 : (scorerApply u g m y t pr (a :: rest)).1 =
            ({ a with achievementCount := pr } :: rest) := by
          simp [scorerApply, hm, hlt]
        rw [h2, List.countP_cons]
        have hm2 : awardKeyMatch u g m y
            { a with achievementCount := pr } = true := by
          simpa [awardKeyMatch] using hm
        rw [if_pos hm2, hrest]
    · have h2 : (scorerApply u g m y t pr (a :: rest)).1 =
          a :: (scorerApply u g m y t pr rest).1 := by
        simp [scorerApply, hm]
      rw [List.countP_cons, if_neg hm] at h
      rw [h2, List.countP_cons, if_neg hm]
      have := ih (by omega)
      omega

/-- C5: at most one Award record ever exists for a (user, game, period) key:
starting from any store holding at most one record of the key, any number of
Scorer invocations for that key leaves at most one record of it — the Scorer
upserts instead of inserting duplicates. -/
theorem claim_C5_at_most_one_award (u g : String) (m y : Nat)
    (obs : List (AwardType × Int)) (store : List AwardRec)
    (h : store.countP (awardKeyMatch u g m y) ≤ 1) :
    (scorerApplyAll u g m y obs store).countP (awardKeyMatch u g m y)
      ≤ 1 := by
  induction obs generalizing store with
  | nil => exact h
  | cons o rest ih =>
    exact ih (scorerApply u g m y o.1 o.2 store).1
      (countP_scorerApply_le u g m y o.1 o.2 store h)

/-- C5 (witness): three scoring passes for alice's game 10 of January 2025 —
the second raising the tier, the third reporting lower progress — leave
exactly one record of the key in an initially empty store. -/
theorem claim_C5_witness :
    ([] : List AwardRec).countP (awardKeyMatch "alice" "10" 1 2025) ≤ 1
    ∧ (scorerApplyAll "alice" "10" 1 2025
        [(.participation, 5), (.beaten, 12), (.participation, 3)]
        []).countP (awardKeyMatch "alice" "10" 1 2025) ≤ 1 :=
  ⟨by decide,
    claim_C5_at_most_one_award "alice" "10" 1 2025
      [(.participation, 5), (.beaten, 12), (.participation, 3)] []
      (by decide)⟩

/-- C7 (amended): the daily, weekly and monthly maintenance handlers of the
first scheduler variant, and the weekly and monthly handlers of the second
variant, leave `lastUserChecks` empty, and none of the six maintenance
handlers modifies the Award store; the `dailyCleanup` of the second variant,
however, leaves `lastUserChecks` exactly as it was, clearing only the
short-lived result cache. -/
theorem claim_C7_maintenance_clears_checks (newActive : List String)
    (now : Nat) (cs : List GameRec) (s : PipelineState) :
    ((dailyCleanupV1 newActive now s).lastUserChecks = []
      ∧ (weeklyMaintenanceV1 newActive now s).lastUserChecks = []
      ∧ (monthlyRolloverV1 newActive now s).lastUserChecks = []
      ∧ (weeklyMaintenanceV2 newActive now cs s).lastUserChecks = []
      ∧ (monthlyRolloverV2 newActive now cs s).lastUserChecks = [])
    ∧ ((dailyCleanupV1 newActive now s).awards = s.awards
      ∧ (weeklyMaintenanceV1 newActive now s).awards = s.awards
      ∧ (monthlyRolloverV1 newActive now s).awards = s.awards
      ∧ (dailyCleanupV2 newActive now s).awards = s.awards
      ∧ (weeklyMaintenanceV2 newActive now cs s).awards = s.awards
      ∧ (monthlyRolloverV2 newActive now cs s).awards = s.awards)
    ∧ (dailyCleanupV2 newActive now s).lastUserChecks = s.lastUserChecks := by
  refine ⟨⟨rfl, rfl, rfl, rfl, rfl⟩, ⟨rfl, rfl, rfl, rfl, rfl, rfl⟩, rfl⟩

/-- C7 (counterexample): after the `dailyCleanup` handler of the second
scheduler variant (lines 215-233) completes on a state whose check cache
holds an entry for alice, `lastUserChecks` is not empty, contradicting the
claim that every daily/weekly/monthly maintenance handler leaves it
empty. -/
theorem claim_C7_counterexample :
    (dailyCleanupV2 ["alice"] 9 samplePipelineState).lastUserChecks
      = [("alice", 3)]
    ∧ ¬ (dailyCleanupV2 ["alice"] 9 samplePipelineState).lastUserChecks
      = [] := by
  refine ⟨rfl, by decide⟩

/-- C8: the privileged force-recheck command respects the single-flight
guard: whenever `statsUpdateService.isUpdating` is true at the time
`forceupdate` runs, the command does not invoke `start()` — so no second
update cycle is initiated — and (for an admin caller) it only reports that an
update is already in progress. -/
theorem claim_C8_forceupdate_single_flight (hasAdminRole isUpdating : Bool)
    (h : isUpdating = true) :
    (forceUpdateExecute hasAdminRole isUpdating).started = false
    ∧ (hasAdminRole = true →
        (forceUpdateExecute hasAdminRole isUpdating).reply =
          "An update is already in progress. Please wait for it to complete.") := by
  subst h
  cases hasAdminRole <;> simp [forceUpdateExecute]

/-- C8 (witness): the guard theorem evaluated for an admin caller while an
update is in flight. -/
theorem claim_C8_witness :
    (forceUpdateExecute true true).started = false
    ∧ (true = true → (forceUpdateExecute true true).reply =
        "An update is already in progress. Please wait for it to complete.") :=
  claim_C8_forceupdate_single_flight true true rfl

/-- C9: manual awards are always additive.  `addManualAward` returns the
store with exactly one new record appended — the existing records are
untouched, no merging happens — and that record's `gameId` is `"manual"`;
every successful `addPlacementAward` call goes through `addManualAward` and
therefore also appends exactly one fresh `"manual"` record. -/
theorem claim_C9_manual_awards_additive (canonical : String → String)
    (username : String) (points : Int) (reason awardedBy : String)
    (meta : Option AwardMeta) (month year : Nat) (store : List AwardRec)
    (placement monthName : String) (s2 : List AwardRec) (r : AwardRec)
    (h : addPlacementAward canonical username placement monthName month year
      store = Except.ok (s2, r)) :
    ((addManualAward canonical username points reason awardedBy meta month
        year store).1
      = store ++
        [(addManualAward canonical username points reason awardedBy meta
          month year store).2]
      ∧ (addManualAward canonical username points reason awardedBy meta month
          year store).2.gameId = "manual")
    ∧ (s2 = store ++ [r] ∧ r.gameId = "manual") := by
  refine ⟨⟨rfl, rfl⟩, ?_⟩
  unfold addPlacementAward at h
  cases hp : placementMap (strLower placement) with
  | none =>
    rw [hp] at h
    exact absurd h (by simp)
  | some v =>
    obtain ⟨pts, emoji, pname⟩ := v
    rw [hp] at h
    simp only [addManualAward, Except.ok.injEq, Prod.mk.injEq] at h
    obtain ⟨h1, h2⟩ := h
    subst h1
    subst h2
    exact ⟨rfl, rfl⟩

/-- C9 (witness): a concrete manual award and a concrete successful
first-place placement award, both appending one `"manual"` record. -/
theorem claim_C9_witness :
    ((addManualAward id "Alice" 5 "help" "Admin" Option.none 1 2025 []).1
      = [] ++
        [(addManualAward id "Alice" 5 "help" "Admin" Option.none 1 2025
          []).2]
      ∧ (addManualAward id "Alice" 5 "help" "Admin" Option.none 1 2025
          []).2.gameId = "manual")
    ∧ ([firstPlacementRec] = [] ++ [firstPlacementRec]
      ∧ firstPlacementRec.gameId = "manual") :=
  claim_C9_manual_awards_additive id "Alice" 5 "help" "Admin" Option.none 1
    2025 [] "first" "January" [firstPlacementRec] firstPlacementRec rfl

/-- C10: when no Award record matches (lowercased username, gameId, month,
year), `getHighestAward` returns `AwardType.NONE` and `hasAward` returns
`false`, and both leave the store exactly as it was. -/
theorem claim_C10_missing_award_defaults (store : List AwardRec)
    (username gameId : String) (month year : Nat)
    (h : findAward store username gameId month year = Option.none) :
    getHighestAward store username gameId month year = (AwardType.none, store)
    ∧ hasAward store username gameId month year = (false, store) := by
  unfold getHighestAward hasAward
  rw [h]
  exact ⟨rfl, rfl⟩

/-- C10 (witness): on a store holding only an award for game 10, a query for
game 99 finds nothing, yielding tier NONE, `false`, and the unchanged
store. -/
theorem claim_C10_witness :
    getHighestAward [sampleMastered] "Alice" "99" 1 2025
      = (AwardType.none, [sampleMastered])
    ∧ hasAward [sampleMastered] "Alice" "99" 1 2025
      = (false, [sampleMastered]) :=
  claim_C10_missing_award_defaults [sampleMastered] "Alice" "99" 1 2025
    (by decide)

/-! ## Standard competition ranking -/

/-- The first components of the rank-assignment output are the input list. -/
theorem rankGo_map_fst (score : α → Int) (r : Nat) (cs : Int) (inc : Nat)
    (l : List α) : (rankGo score r cs inc l).map Prod.fst = l := by
  induction l generalizing r cs inc with
  | nil => rfl
  | cons a rest ih =>
    by_cases h : score a = cs <;> simp [rankGo, h, ih]

/-- Core invariant of the rank-assignment loop.  Processing a sorted suffix
`l` from state `(r, cs, inc)` after `p` entries were already handled, with
`F x` the number of handled entries scoring strictly above `x`, provided
`r + inc = p + 1`, entries scoring other than `cs` are below all handled
entries, `cs`-scored entries have exactly `r - 1` handled entries above them,
and a `cs`-scored entry can only appear as a maximum of `l`: every rank
produced is one plus the number of handled-or-earlier entries strictly above
its entry. -/
theorem rankGo_rank_eq (score : α → Int) (l : List α) (F : Int → Nat)
    (r inc p : Nat) (cs : Int)
    (hl : l.Pairwise (fun a b => score b ≤ score a))
    (hrp : r + inc = p + 1)
    (hne : ∀ a ∈ l, ¬ score a = cs → F (score a) = p)
    (heq : ∀ a ∈ l, score a = cs → r = F (score a) + 1)
    (hmax : ∀ a ∈ l, score a = cs → ∀ b ∈ l, score b ≤ score a) :
    ∀ (i : Nat) (x : α) (rk : Nat),
      (rankGo score r cs inc l)[i]? = some (x, rk) →
      rk = 1 + F (score x)
        + (l.take i).countP (fun b => decide (score x < score b)) := by
  induction l generalizing F r inc p cs with
  | nil =>
    intro i x rk h
    simp [rankGo] at h
  | cons a rest ih =>
    obtain ⟨ha, hrest⟩ := List.pairwise_cons.mp hl
    intro i x rk h
    by_cases hcs : score a = cs
    · have hred : rankGo score r cs inc (a :: rest)
          = (a, r) :: rankGo score r cs (inc + 1) rest := by
        simp [rankGo, hcs]
      rw [hred] at h
      match i with
      | 0 =>
        rw [List.getElem?_cons_zero, Option.some.injEq, Prod.mk.injEq] at h
        obtain ⟨hx, hrk⟩ := h
        subst hx
        subst hrk
        have hr := heq a (List.mem_cons_self a rest) hcs
        simp only [List.take_zero, List.countP_nil]
        omega
      | (j + 1) =>
        rw [List.getElem?_cons_succ] at h
        have hne2 : ∀ b ∈ rest, ¬ score b = cs →
            F (score b) + (if score b < score a then 1 else 0) = p + 1 := by
          intro b hb hbne
          have h1 : score b ≤ score a := ha b hb
          have h2 : score b < score a := by
            rcases lt_or_eq_of_le h1 with hlt | heqv
            · exact hlt
            · exact absurd (heqv.trans hcs) hbne
          rw [if_pos h2]
          have h3 := hne b (List.mem_cons_of_mem a hb) hbne
          omega
        have heq2 : ∀ b ∈ rest, score b = cs →
            r = F (score b) + (if score b < score a then 1 else 0) + 1 := by
          intro b hb hbe
          have h2 : ¬ score b < score a := by
            rw [hbe, ← hcs]
            exact lt_irrefl _
          rw [if_neg h2, Nat.add_zero]
          exact heq b (List.mem_cons_of_mem a hb) hbe
        have hmax2 : ∀ b ∈ rest, score b = cs →
            ∀ c ∈ rest, score c ≤ score b := by
          intro b hb hbe c hc
          exact hmax b (List.mem_cons_of_mem a hb) hbe c
            (List.mem_cons_of_mem a hc)
        have hres := ih (fun v => F v + (if v < score a then 1 else 0)) r
          (inc + 1) (p + 1) cs hrest (by omega) hne2 heq2 hmax2 j x rk h
        rw [List.take_succ_cons, List.countP_cons, hres]
        by_cases hxa : score x < score a <;> simp [hxa] <;> omega
    · have hred : rankGo score r cs inc (a :: rest)
          = (a, r + inc) :: rankGo score (r + inc) (score a) 1 rest := by
        simp [rankGo, hcs]
      rw [hred] at h
      match i with
      | 0 =>
        rw [List.getElem?_cons_zero, Option.some.injEq, Prod.mk.injEq] at h
        obtain ⟨hx, hrk⟩ := h
        subst hx
        subst hrk
        have hp := hne a (List.mem_cons_self a rest) hcs
        simp only [List.take_zero, List.countP_nil]
        omega
      | (j + 1) =>
        rw [List.getElem?_cons_succ] at h
        have hne2 : ∀ b ∈ rest, ¬ score b = score a →
            F (score b) + (if score b < score a then 1 else 0) = p + 1 := by
          intro b hb hbne
          have h1 : score b ≤ score a := ha b hb
          have h2 : score b < score a := lt_of_le_of_ne h1 hbne
          rw [if_pos h2]
          have hbc : ¬ score b = cs := by
            intro hbc
            have h3 := hmax b (List.mem_cons_of_mem a hb) hbc a
              (List.mem_cons_self a rest)
            have h4 : score a = score b := le_antisymm h3 h1
            exact hcs (h4.trans hbc)
          have h5 := hne b (List.mem_cons_of_mem a hb) hbc
          omega
        have heq2 : ∀ b ∈ rest, score b = score a →
            r + inc = F (score b) + (if score b < score a then 1 else 0)
              + 1 := by
          intro b hb hbe
          have h2 : ¬ score b < score a := by
            rw [hbe]
            exact lt_irrefl _
          rw [if_neg h2, Nat.add_zero]
          have hbc : ¬ score b = cs := by
            intro hbc
            exact hcs (hbe.symm.trans hbc)
          have h5 := hne b (List.mem_cons_of_mem a hb) hbc
          omega
        have hmax2 : ∀ b ∈ rest, score b = score a →
            ∀ c ∈ rest, score c ≤ score b := by
          intro b hb hbe c hc
          rw [hbe]
          exact ha c hc
        have hres := ih (fun v => F v + (if v < score a then 1 else 0))
          (r + inc) 1 (p + 1) (score a) hrest (by omega) hne2 heq2 hmax2
          j x rk h
        rw [List.take_succ_cons, List.countP_cons, hres]
        by_cases hxa : score x < score a <;> simp [hxa] <;> omega

/-- In a descending-sorted list, no entry at or after position `i` scores
strictly above the entry at position `i`. -/
theorem countP_gt_drop_zero (score : α → Int) (l : List α)
    (hl : l.Pairwise (fun a b => score b ≤ score a))
    (i : Nat) (x : α) (hx : l[i]? = some x) :
    (l.drop i).countP (fun b => decide (score x < score b)) = 0 := by
  rw [List.countP_eq_zero]
  intro b hb
  simp only [decide_eq_true_eq, not_lt]
  obtain ⟨hi, hgx⟩ := List.getElem?_eq_some.mp hx
  rw [List.drop_eq_getElem_cons hi] at hb
  rcases List.mem_cons.mp hb with hb0 | hb1
  · rw [hb0, hgx]
  · obtain ⟨j, hj, hgb⟩ := List.mem_iff_getElem.mp hb1
    have hlen : (l.drop (i + 1)).length = l.length - (i + 1) :=
      List.length_drop _ _
    have hj2 : i + 1 + j < l.length := by omega
    rw [List.getElem_drop] at hgb
    have hp := List.pairwise_iff_getElem.mp hl i (i + 1 + j) hi hj2
      (by omega)
    rw [hgx, hgb] at hp
    exact hp

/-- For the entry at position `i` of a descending-sorted list, the strictly
better entries of the prefix before `i` are all the strictly better entries
of the list. -/
theorem countP_gt_take_eq (score : α → Int) (l : List α)
    (hl : l.Pairwise (fun a b => score b ≤ score a))
    (i : Nat) (x : α) (hx : l[i]? = some x) :
    (l.take i).countP (fun b => decide (score x < score b))
      = l.countP (fun b => decide (score x < score b)) := by
  conv_rhs => rw [← List.take_append_drop i l]
  rw [List.countP_append, countP_gt_drop_zero score l hl i x hx]
  omega

/-- On a descending-sorted list of non-negative scores, the rank the loop
assigns to the entry at any position is one plus the number of entries of
the list scoring strictly above it — standard competition ranking. -/
theorem assignRanks_rank_eq (score : α → Int) (l : List α)
    (hl : l.Pairwise (fun a b => score b ≤ score a))
    (hpos : ∀ a ∈ l, 0 ≤ score a) :
    ∀ (i : Nat) (x : α) (rk : Nat),
      (assignRanks score l)[i]? = some (x, rk) →
      rk = 1 + l.countP (fun b => decide (score x < score b)) := by
  intro i x rk h
  unfold assignRanks at h
  have h0 := rankGo_rank_eq score l (fun _ => 0) 1 0 0 (-1) hl (by omega)
    (fun a _ _ => rfl)
    (fun a _ _ => rfl)
    (fun a haa hae => absurd hae (by have := hpos a haa; omega))
    i x rk h
  have hfst : l[i]? = some x := by
    have hm := rankGo_map_fst score 1 (-1) 0 l
    have h2 : (List.map Prod.fst (rankGo score 1 (-1) 0 l))[i]? = some x := by
      rw [List.getElem?_map, h]
      rfl
    rw [hm] at h2
    exact h2
  rw [h0, countP_gt_take_eq score l hl i x hfst]
  simp

/-- Descending `mergeSort` output is pairwise descending in the score. -/
theorem pairwise_mergeSort_score (score : α → Int) (l : List α) :
    (l.mergeSort (fun a b => decide (score b ≤ score a))).Pairwise
      (fun a b => score b ≤ score a) := by
  have h := @List.sorted_mergeSort α
    (fun a b => decide (score b ≤ score a))
    (fun a b c hab hbc => by
      simp only [decide_eq_true_eq] at *
      exact le_trans hbc hab)
    (fun a b => by simpa using le_total (score b) (score a)) l
  exact List.Pairwise.imp (by intro a b hab; simpa using hab) h

/-- Standard competition ranking for the whole sort-then-rank pipeline run
by both leaderboard functions, stated against the unsorted eligible list. -/
theorem assignRanks_mergeSort_rank_eq (score : α → Int) (l : List α)
    (hpos : ∀ a ∈ l, 0 ≤ score a) :
    ∀ (i : Nat) (x : α) (rk : Nat),
      (assignRanks score
        (l.mergeSort (fun a b => decide (score b ≤ score a))))[i]?
        = some (x, rk) →
      rk = 1 + l.countP (fun b => decide (score x < score b)) := by
  intro i x rk h
  have hperm := List.mergeSort_perm l
    (fun a b => decide (score b ≤ score a))
  have hpos2 : ∀ a ∈ l.mergeSort (fun a b => decide (score b ≤ score a)),
      0 ≤ score a := fun a ha => hpos a (hperm.mem_iff.mp ha)
  have h2 := assignRanks_rank_eq score
    (l.mergeSort (fun a b => decide (score b ≤ score a)))
    (pairwise_mergeSort_score score l) hpos2 i x rk h
  rw [h2, hperm.countP_eq]

/-- C1: the rank assignment shared by `getMonthlyLeaderboard` and
`getYearlyLeaderboard` implements standard competition ranking.  On any
descending-sorted list of non-negative scores the assigned rank of every
entry is one plus the number of entries with strictly higher score (so tied
scores share one rank and the rank after a tie block jumps by the block
size); the same holds for the full monthly pipeline (against the eligible
awards, counting strictly higher `achievementCount`) and the full yearly
pipeline (against the positive-total users, counting strictly higher
`totalPoints`); and for scores `[5, 5, 3]` the assigned ranks are
`[1, 1, 3]`. -/
theorem claim_C1_standard_competition_ranking (l : List Int)
    (hsort : l.Pairwise (fun a b => b ≤ a)) (hpos : ∀ x ∈ l, (0 : Int) ≤ x)
    (gameId : String) (month year : Nat) (store : List AwardRec)
    (yearB : Nat) (storeB : List AwardRec) :
    (∀ (i : Nat) (x : Int) (rk : Nat),
      (assignRanks (fun v => v) l)[i]? = some (x, rk) →
      rk = 1 + l.countP (fun b => decide (x < b)))
    ∧ (∀ (i : Nat) (a : AwardRec) (rk : Nat),
      (getMonthlyRanked gameId month year store)[i]? = some (a, rk) →
      rk = 1 + (monthlyEligible gameId month year store).countP
        (fun b => decide (a.achievementCount < b.achievementCount)))
    ∧ (∀ (i : Nat) (e : YEntry) (rk : Nat),
      (getYearlyLeaderboard yearB storeB)[i]? = some (e, rk) →
      rk = 1 + (yearlyPositive yearB storeB).countP
        (fun b => decide (e.totalPoints < b.totalPoints)))
    ∧ assignRanks (fun v => v) [5, 5, 3] = [(5, 1), (5, 1), (3, 3)] := by
  refine ⟨?_, ?_, ?_, by decide⟩
  · exact assignRanks_rank_eq (fun v => v) l hsort hpos
  · intro i a rk h
    unfold getMonthlyRanked at h
    refine assignRanks_mergeSort_rank_eq (fun a => a.achievementCount)
      (monthlyEligible gameId month year store) ?_ i a rk h
    intro b hb
    have hmem := List.mem_filter.mp hb
    have hprop := of_decide_eq_true hmem.2
    exact le_of_lt hprop.2.2.2
  · intro i e rk h
    unfold getYearlyLeaderboard getYearlyLeaderboardEntries at h
    refine assignRanks_mergeSort_rank_eq (fun e => e.totalPoints)
      (yearlyPositive yearB storeB) ?_ i e rk h
    intro b hb
    have hmem := List.mem_filter.mp hb
    have hprop := of_decide_eq_true hmem.2
    exact le_of_lt hprop

/-- C1 (witness): the ranking theorem applied to the concrete score list
`[5, 5, 3]`, whose assigned ranks evaluate to `[1, 1, 3]`. -/
theorem claim_C1_witness :
    assignRanks (fun v => v) [5, 5, 3] = [(5, 1), (5, 1), (3, 3)] :=
  (claim_C1_standard_competition_ranking [5, 5, 3] (by decide) (by decide)
    "g" 1 2025 [] 2025 []).2.2.2

/-! ## Yearly totals -/

/-- Manual cons step of `manualSum`. -/
theorem manualSum_cons_manual (a : AwardRec) (rest : List AwardRec)
    (h : a.gameId = "manual") :
    manualSum (a :: rest) = a.totalAchievements + manualSum rest := by
  simp [manualSum, h]

/-- Non-manual cons step of `manualSum`. -/
theorem manualSum_cons_other (a : AwardRec) (rest : List AwardRec)
    (h : ¬ a.gameId = "manual") :
    manualSum (a :: rest) = manualSum rest := by
  simp [manualSum, h]

/-- Cons step of `tierSum`. -/
theorem tierSum_cons (a : AwardRec) (rest : List AwardRec) :
    tierSum (a :: rest) = tierPoints a.award + tierSum rest := by
  simp [tierSum]

/-- The loop of `calculateTotalPoints` computes, over any suffix and seen
set, the tier points of the first-per-key non-manual awards plus the manual
point values. -/
theorem calcTPLoop_eq (l : List AwardRec) (seen : List String) (ch co : Int) :
    calcTPLoop l seen (ch, co)
      = (ch + tierSum (serviceProcess seen l), co + manualSum l) := by
  induction l generalizing seen ch co with
  | nil =>
    simp [calcTPLoop, serviceProcess, tierSum, manualSum]
  | cons a rest ih =>
    by_cases hman : a.gameId = "manual"
    · rw [show calcTPLoop (a :: rest) seen (ch, co)
          = calcTPLoop rest seen (ch, co + a.totalAchievements) from by
        simp [calcTPLoop, hman]]
      rw [ih seen ch (co + a.totalAchievements)]
      rw [show serviceProcess seen (a :: rest) = serviceProcess seen rest
          from by simp [serviceProcess, hman]]
      rw [manualSum_cons_manual a rest hman]
      simp only [Prod.mk.injEq, true_and]
      ring
    · by_cases hseen : gameKey a ∈ seen
      · rw [show calcTPLoop (a :: rest) seen (ch, co)
            = calcTPLoop rest seen (ch, co) from by
          simp [calcTPLoop, hman, hseen]]
        rw [ih seen ch co]
        rw [show serviceProcess seen (a :: rest) = serviceProcess seen rest
            from by simp [serviceProcess, hman, hseen]]
        rw [manualSum_cons_other a rest hman]
      · rw [show calcTPLoop (a :: rest) seen (ch, co)
            = calcTPLoop rest (gameKey a :: seen)
              (ch + tierPoints a.award, co) from by
          simp [calcTPLoop, hman, hseen]]
        rw [ih (gameKey a :: seen) (ch + tierPoints a.award) co]
        rw [show serviceProcess seen (a :: rest)
            = a :: serviceProcess (gameKey a :: seen) rest from by
          simp [serviceProcess, hman, hseen]]
        rw [manualSum_cons_other a rest hman, tierSum_cons]
        simp only [Prod.mk.injEq, and_true]
        ring

/-- Entries produced by rank assignment come from the ranked list. -/
theorem mem_assignRanks_fst (score : α → Int) (l : List α) (pr : α × Nat)
    (h : pr ∈ assignRanks score l) : pr.1 ∈ l := by
  have hm := rankGo_map_fst score 1 (-1) 0 l
  rw [← hm]
  unfold assignRanks at h
  exact List.mem_map_of_mem Prod.fst h

/-- C2 (amended): `AwardService.calculateTotalPoints` satisfies the claimed
formula — its total equals the tier points of the user's awards of the year
counted once per `(gameId, month)` key (the first record of each key) plus
the point values of all the manual awards of that year — and every user the
yearly leaderboard lists has strictly positive `totalPoints`.
`getYearlyLeaderboard`, however, computes its totals from the boolean flags
of every single record, with no per-key deduplication and without the manual
point values (see the counterexample). -/
theorem claim_C2_yearly_total_formula (username : String) (year : Nat)
    (store : List AwardRec) :
    calculateTotalPoints username year store
      = tierSum (serviceProcess [] (yearAwards username year store))
        + manualSum (yearAwards username year store)
    ∧ ∀ p ∈ getYearlyLeaderboard year store, 0 < p.1.totalPoints := by
  constructor
  · show (calcTPLoop (yearAwards username year store) [] (0, 0)).1
        + (calcTPLoop (yearAwards username year store) [] (0, 0)).2
      = tierSum (serviceProcess [] (yearAwards username year store))
        + manualSum (yearAwards username year store)
    rw [calcTPLoop_eq]
    simp
  · intro p hp
    unfold getYearlyLeaderboard at hp
    have h1 : p.1 ∈ getYearlyLeaderboardEntries year store :=
      mem_assignRanks_fst (fun e => e.totalPoints)
        (getYearlyLeaderboardEntries year store) p hp
    have h2 : p.1 ∈ yearlyPositive year store := by
      have hperm := List.mergeSort_perm (yearlyPositive year store)
        (fun a b => decide (b.totalPoints ≤ a.totalPoints))
      unfold getYearlyLeaderboardEntries at h1
      exact hperm.mem_iff.mp h1
    have h3 := List.mem_filter.mp h2
    exact of_decide_eq_true h3.2

/-- C2 (counterexample): on a store holding a single manual award of 5
points for alice in 2025, the claimed formula (and
`calculateTotalPoints`) gives a yearly total of 5, yet
`getYearlyLeaderboard` for 2025 is empty: the leaderboard aggregation
ignores manual point values (the record's boolean flags give 0 points), so
the two implementations do not both satisfy the claimed total. -/
theorem claim_C2_counterexample :
    calculateTotalPoints "Alice" 2025 [sampleManual] = 5
    ∧ tierSum (serviceProcess [] (yearAwards "Alice" 2025 [sampleManual]))
        + manualSum (yearAwards "Alice" 2025 [sampleManual]) = 5
    ∧ getYearlyLeaderboard 2025 [sampleManual] = [] := by
  refine ⟨by decide, by decide, ?_⟩
  unfold getYearlyLeaderboard getYearlyLeaderboardEntries
  rw [show yearlyPositive 2025 [sampleManual] = [] from by decide]
  rw [List.mergeSort_nil]
  rfl

/-! ## Tier tallies in yearly statistics -/

/-- The manual step leaves the three tier counters unchanged. -/
theorem manualUpd_counts (a : AwardRec) (s : ServiceStats) :
    (manualUpd a s).mastered = s.mastered
    ∧ (manualUpd a s).beaten = s.beaten
    ∧ (manualUpd a s).participation = s.participation :=
  ⟨rfl, rfl, rfl⟩

/-- The tier step bumps exactly the counter of the award's band: `mastered`
for tiers at least MASTERED, `beaten` for tiers at least BEATEN but below
MASTERED, `participation` for tiers at least PARTICIPATION but below
BEATEN. -/
theorem tierUpd_counts (a : AwardRec) (s : ServiceStats) :
    (tierUpd a s).mastered = s.mastered
        + (if awardGe a.award .mastered then 1 else 0)
    ∧ (tierUpd a s).beaten = s.beaten
        + (if awardGe a.award .beaten && ! awardGe a.award .mastered then 1
          else 0)
    ∧ (tierUpd a s).participation = s.participation
        + (if awardGe a.award .participation && ! awardGe a.award .beaten
          then 1 else 0) := by
  cases h : a.award <;> simp [tierUpd, awardGe, awTo, h]

/-- The profile step counts a game toward every tally its tier implies:
mastered games toward all three, beaten games toward beaten and
participated, participation games toward participated only. -/
theorem profileStep_counts (g : GameRec) (a : AwardRec) (s : ProfileStats) :
    (profileStep g a s).gamesParticipated = s.gamesParticipated
        + (if a.highestAwardKind = .participation
            ∨ a.highestAwardKind = .beaten
            ∨ a.highestAwardKind = .mastered then 1 else 0)
    ∧ (profileStep g a s).gamesBeaten = s.gamesBeaten
        + (if a.highestAwardKind = .beaten
            ∨ a.highestAwardKind = .mastered then 1 else 0)
    ∧ (profileStep g a s).gamesMastered = s.gamesMastered
        + (if a.highestAwardKind = .mastered then 1 else 0) := by
  cases h : a.highestAwardKind <;> simp [profileStep, h]

/-- The loop of `AwardService.getYearlyStats` tallies each processed award
at exactly its highest band. -/
theorem serviceStatsLoop_counts (l : List AwardRec) (seen : List String)
    (s : ServiceStats) :
    (serviceStatsLoop l seen s).mastered
        = s.mastered + (serviceProcess seen l).countP
            (fun a => awardGe a.award .mastered)
    ∧ (serviceStatsLoop l seen s).beaten
        = s.beaten + (serviceProcess seen l).countP
            (fun a => awardGe a.award .beaten && ! awardGe a.award .mastered)
    ∧ (serviceStatsLoop l seen s).participation
        = s.participation + (serviceProcess seen l).countP
            (fun a => awardGe a.award .participation
              && ! awardGe a.award .beaten) := by
  induction l generalizing seen s with
  | nil =>
    simp [serviceStatsLoop, serviceProcess]
  | cons a rest ih =>
    by_cases hman : a.gameId = "manual"
    · obtain ⟨i1, i2, i3⟩ := ih seen (manualUpd a s)
      obtain ⟨m1, m2, m3⟩ := manualUpd_counts a s
      refine ⟨?_, ?_, ?_⟩ <;>
        simp [serviceStatsLoop, serviceProcess, hman, i1, i2, i3, m1, m2, m3]
    · by_cases hseen : gameKey a ∈ seen
      · obtain ⟨i1, i2, i3⟩ := ih seen s
        refine ⟨?_, ?_, ?_⟩ <;>
          simp [serviceStatsLoop, serviceProcess, hman, hseen, i1, i2, i3]
      · obtain ⟨i1, i2, i3⟩ := ih (gameKey a :: seen) (tierUpd a s)
        obtain ⟨t1, t2, t3⟩ := tierUpd_counts a s
        refine ⟨?_, ?_, ?_⟩ <;>
          simp [serviceStatsLoop, serviceProcess, hman, hseen, i1, i2, i3,
            t1, t2, t3, List.countP_cons] <;>
          omega

/-- The loop of the profile `getYearlyStats` counts each processed award
toward every tally its tier implies. -/
theorem profileStatsLoop_counts (games : List GameRec) (year : Nat)
    (l : List AwardRec) (seen : List String) (s : ProfileStats) :
    (profileStatsLoop games year l seen s).gamesParticipated
        = s.gamesParticipated + (profileProcess games year seen l).countP
            (fun a => decide (a.highestAwardKind = .participation
              ∨ a.highestAwardKind = .beaten
              ∨ a.highestAwardKind = .mastered))
    ∧ (profileStatsLoop games year l seen s).gamesBeaten
        = s.gamesBeaten + (profileProcess games year seen l).countP
            (fun a => decide (a.highestAwardKind = .beaten
              ∨ a.highestAwardKind = .mastered))
    ∧ (profileStatsLoop games year l seen s).gamesMastered
        = s.gamesMastered + (profileProcess games year seen l).countP
            (fun a => decide (a.highestAwardKind = .mastered)) := by
  induction l generalizing seen s with
  | nil =>
    simp [profileStatsLoop, profileProcess]
  | cons a rest ih =>
    by_cases hach : a.achievementCount ≤ 0
    · obtain ⟨i1, i2, i3⟩ := ih seen s
      refine ⟨?_, ?_, ?_⟩ <;>
        simp [profileStatsLoop, profileProcess, hach, i1, i2, i3]
    · cases hg : findGame games a.gameId year with
      | none =>
        obtain ⟨i1, i2, i3⟩ := ih seen s
        refine ⟨?_, ?_, ?_⟩ <;>
          simp [profileStatsLoop, profileProcess, hach, hg, i1, i2, i3]
      | some g =>
        by_cases hseen : (g.gameId ++ "-" ++ toString a.month) ∈ seen
        · obtain ⟨i1, i2, i3⟩ := ih seen s
          refine ⟨?_, ?_, ?_⟩ <;>
            simp [profileStatsLoop, profileProcess, hach, hg, hseen,
              i1, i2, i3]
        · obtain ⟨i1, i2, i3⟩ :=
            ih ((g.gameId ++ "-" ++ toString a.month) :: seen)
              (profileStep g a s)
          obtain ⟨t1, t2, t3⟩ := profileStep_counts g a s
          refine ⟨?_, ?_, ?_⟩ <;>
            simp [profileStatsLoop, profileProcess, hach, hg, hseen,
              i1, i2, i3, t1, t2, t3, List.countP_cons] <;>
            omega

/-- C6 (amended): in the profile `getYearlyStats`, a processed game at
MASTERED counts once toward each of the participated, beaten and mastered
tallies, and a game at BEATEN counts once toward participated and beaten;
`AwardService.getYearlyStats`, however, tallies each processed game only at
its highest band: its `mastered`, `beaten` and `participation` counters
partition the processed games by tier instead of counting inclusively. -/
theorem claim_C6_inclusive_tallies (username : String) (year : Nat)
    (games : List GameRec) (store : List AwardRec) :
    ((profileGetYearlyStats username year games store).gamesParticipated
        = (profileProcess games year []
            (profileYearAwards username year store)).countP
            (fun a => decide (a.highestAwardKind = .participation
              ∨ a.highestAwardKind = .beaten
              ∨ a.highestAwardKind = .mastered))
      ∧ (profileGetYearlyStats username year games store).gamesBeaten
        = (profileProcess games year []
            (profileYearAwards username year store)).countP
            (fun a => decide (a.highestAwardKind = .beaten
              ∨ a.highestAwardKind = .mastered))
      ∧ (profileGetYearlyStats username year games store).gamesMastered
        = (profileProcess games year []
            (profileYearAwards username year store)).countP
            (fun a => decide (a.highestAwardKind = .mastered)))
    ∧ ((serviceGetYearlyStats username year store).mastered
        = (serviceProcess [] (yearAwards username year store)).countP
            (fun a => awardGe a.award .mastered)
      ∧ (serviceGetYearlyStats username year store).beaten
        = (serviceProcess [] (yearAwards username year store)).countP
            (fun a => awardGe a.award .beaten && ! awardGe a.award .mastered)
      ∧ (serviceGetYearlyStats username year store).participation
        = (serviceProcess [] (yearAwards username year store)).countP
            (fun a => awardGe a.award .participation
              && ! awardGe a.award .beaten)) := by
  constructor
  · obtain ⟨i1, i2, i3⟩ := profileStatsLoop_counts games year
      (profileYearAwards username year store) []
      ⟨0, 0, 0, 0, 0, 0, 0, [], [], []⟩
    exact ⟨by simpa [profileGetYearlyStats] using i1,
      by simpa [profileGetYearlyStats] using i2,
      by simpa [profileGetYearlyStats] using i3⟩
  · obtain ⟨i1, i2, i3⟩ := serviceStatsLoop_counts
      (yearAwards username year store) [] ⟨0, 0, 0, 0, 0, []⟩
    exact ⟨by simpa [serviceGetYearlyStats] using i1,
      by simpa [serviceGetYearlyStats] using i2,
      by simpa [serviceGetYearlyStats] using i3⟩

/-- C6 (counterexample): on a store holding a single MASTERED award for
alice, `AwardService.getYearlyStats` reports one mastered game but zero
beaten and zero participated games — the mastered game does not count
toward the beaten and participated tallies there, while the profile
`getYearlyStats` (with the matching game record) counts it toward all
three. -/
theorem claim_C6_counterexample :
    (serviceGetYearlyStats "alice" 2025 [sampleMastered]).mastered = 1
    ∧ (serviceGetYearlyStats "alice" 2025 [sampleMastered]).beaten = 0
    ∧ (serviceGetYearlyStats "alice" 2025 [sampleMastered]).participation = 0
    ∧ (profileGetYearlyStats "alice" 2025 [sampleGame]
        [sampleMastered]).gamesParticipated = 1
    ∧ (profileGetYearlyStats "alice" 2025 [sampleGame]
        [sampleMastered]).gamesBeaten = 1
    ∧ (profileGetYearlyStats "alice" 2025 [sampleGame]
        [sampleMastered]).gamesMastered = 1 := by
  exact ⟨by decide, by decide, by decide, by decide, by decide, by decide⟩

end SelectStart
